import Mathlib

/-!
Shallow embedding of the snapshot aggregation engine in `relay_binance.py`.

Conventions of the embedding:
* Python ints (millisecond epochs, status codes) become `Int`.
* Python floats (prices, quantities, thresholds) become `ℚ`; the one use of
  `math.sqrt` is abstracted as an explicit function argument.
* HTTP calls become explicit arguments: an upstream response is a pair of a
  status code and a body, and a network-level exception is an `Except.error`.
* A Python `raise` becomes `Except.error`.
-/

set_option autoImplicit false

namespace RelayBinance

/-- `INTERVAL_MS = 5 * 60 * 1000`, the 5-minute bar duration in milliseconds. -/
def INTERVAL_MS : Int := 5 * 60 * 1000

/-- One raw kline row from the upstream API: `[openTime, open, high, low, close, volume, ...]`.
Prices and volume are modelled as exact rationals. -/
structure RawRow where
  openTime : Int
  o : ℚ
  h : ℚ
  l : ℚ
  c : ℚ
  v : ℚ
  deriving Repr, DecidableEq, Inhabited

/-- One closed candle as assembled by the fetchers (`fetch_klines_closed` /
`fetch_klines_closed_interval`). -/
structure Candle where
  open_time : Int
  close_time : Int
  o : ℚ
  h : ℚ
  l : ℚ
  c : ℚ
  v : ℚ
  deriving Repr, DecidableEq, Inhabited

/-- Errors raised by the kline fetchers: `RuntimeError(f"klines upstream {status}")`
and `RuntimeError("no closed candles yet")`. -/
inductive KlinesErr where
  | upstream (status : Int)
  | noClosed
  deriving Repr, DecidableEq

/-- The Python slice `closed[-n:]`: the last `n` elements, or the whole list when
`n = 0` (since `closed[-0:]` is `closed[0:]`). -/
def lastSlice {α : Type} (n : Nat) (l : List α) : List α :=
  if n = 0 then l else l.drop (l.length - n)

/-- Builds the candle dict appended in the fetchers' loops. -/
def mkCandle (row : RawRow) (close_time : Int) : Candle :=
  { open_time := row.openTime, close_time := close_time,
    o := row.o, h := row.h, l := row.l, c := row.c, v := row.v }

/-- `fetch_klines_closed(symbol, n)`: requests `n + 2` rows, takes the wall clock
`t_now`, keeps every row whose `close_time = open_time + INTERVAL_MS` is `≤ t_now`,
raises when the upstream status is not 200 or when no closed candle remains, and
returns `closed[-n:]`. The upstream call is modelled as a function from the
requested `limit` to a `(status, rows)` pair. -/
def fetch_klines_closed (upstream : Nat → Int × List RawRow) (n : Nat) (t_now : Int) :
    Except KlinesErr (List Candle) :=
  let resp := upstream (n + 2)
  if resp.1 ≠ 200 then .error (.upstream resp.1)
  else
    let closed := resp.2.filterMap (fun row =>
      let close_time := row.openTime + INTERVAL_MS
      if close_time ≤ t_now then some (mkCandle row close_time) else none)
    if closed = [] then .error .noClosed
    else .ok (lastSlice n closed)

/-- The close time computed for row `i` of `raw` in `fetch_klines_closed_interval`:
the next row's open time when there is a next row, otherwise the row's open time
plus the delta to the previous row (or plus `INTERVAL_MS` for a single row). -/
def closeTimeAt (raw : List RawRow) (i : Nat) : Int :=
  let row := raw.getD i default
  if i + 1 < raw.length then (raw.getD (i + 1) default).openTime
  else if 0 < i then row.openTime + (row.openTime - (raw.getD (i - 1) default).openTime)
  else row.openTime + INTERVAL_MS

/-- `fetch_klines_closed_interval(symbol, interval, n)`: same as
`fetch_klines_closed` but the close time of each row comes from `closeTimeAt`. -/
def fetch_klines_closed_interval (upstream : Nat → Int × List RawRow) (n : Nat)
    (t_now : Int) : Except KlinesErr (List Candle) :=
  let resp := upstream (n + 2)
  if resp.1 ≠ 200 then .error (.upstream resp.1)
  else
    let raw := resp.2
    let closed := (List.range raw.length).filterMap (fun i =>
      let close_time := closeTimeAt raw i
      if close_time ≤ t_now then some (mkCandle (raw.getD i default) close_time) else none)
    if closed = [] then .error .noClosed
    else .ok (lastSlice n closed)

/-- `ema(values, period)`: returns `0.0` when the list is empty, `period <= 1`,
or fewer than `period` values are supplied; otherwise seeds with the first value
and folds the smoothing recurrence `e = v * k + e * (1 - k)` with
`k = 2 / (period + 1)`. `period` is a Python int, hence `Int`. -/
def ema (values : List ℚ) (period : Int) : ℚ :=
  if values = [] ∨ period ≤ 1 ∨ (values.length : Int) < period then 0
  else
    let k : ℚ := 2 / ((period : ℚ) + 1)
    match values with
    | [] => 0
    | v0 :: rest => rest.foldl (fun e v => v * k + e * (1 - k)) v0

/-- The candle fields `atr14_from_candles` reads: `float(c["high"])`,
`float(c["low"])`, `float(c["close"])`. -/
structure HLC where
  high : ℚ
  low : ℚ
  close : ℚ
  deriving Repr, DecidableEq, Inhabited

/-- The true-range accumulation loop of `atr14_from_candles`: `prev_close` is
`None` on the first bar (giving `high - low`) and the previous bar's close
afterwards (giving `max(h - l, |h - prev|, |l - prev|)`). -/
def trLoop : Option ℚ → List HLC → List ℚ
  | _, [] => []
  | none, c :: rest => (c.high - c.low) :: trLoop (some c.close) rest
  | some pc, c :: rest =>
      max (c.high - c.low) (max |c.high - pc| |c.low - pc|) :: trLoop (some c.close) rest

/-- `atr14_from_candles(candles)`: `0.0` for fewer than 15 candles, otherwise
`sum(trs[-14:]) / 14.0`. -/
def atr14_from_candles (candles : List HLC) : ℚ :=
  if candles.length < 15 then 0
  else
    let trs := trLoop none candles
    (trs.drop (trs.length - 14)).sum / 14

/-- The sample mean used by `zscore`. -/
def zmean (series : List ℚ) : ℚ := series.sum / (series.length : ℚ)

/-- The Bessel-corrected sample variance used by `zscore`:
`sum((x - m)^2) / (len - 1)`. -/
def zvarSample (series : List ℚ) : ℚ :=
  (series.map (fun x => (x - zmean series) ^ 2)).sum / ((series.length : ℚ) - 1)

/-- `zscore(value, series)`: `0.0` for an empty or single-element series,
otherwise `(value - m) / sd` with `sd = sqrt(max(var, 1e-12))`. The square root
(`math.sqrt`) is passed in as an explicit function. -/
def zscore (sqrtF : ℚ → ℚ) (value : ℚ) (series : List ℚ) : ℚ :=
  if series = [] ∨ series.length < 2 then 0
  else
    let sd := sqrtF (max (zvarSample series) (1 / 1000000000000))
    (value - zmean series) / sd

/-- The block returned by `depth_snapshot` on upstream success. -/
structure DepthSnap where
  IB : ℚ
  spread_bps : ℚ
  depth_top5_qty : ℚ
  deriving Repr, DecidableEq

/-- `depth_snapshot(symbol, limit)`: `None` on a non-200 status; otherwise sums
bid and ask quantities, computes the imbalance `IB`, and the spread in basis
points — `1e9` when either book side is empty. Levels are `(price, qty)` pairs. -/
def depth_snapshot (status : Int) (bids asks : List (ℚ × ℚ)) : Option DepthSnap :=
  if status ≠ 200 then none
  else
    let bid_sum := (bids.map Prod.snd).sum
    let ask_sum := (asks.map Prod.snd).sum
    let denom := bid_sum + ask_sum
    let ib := if denom > 0 then (bid_sum - ask_sum) / denom else 0
    let spread_bps :=
      if bids ≠ [] ∧ asks ≠ [] then
        let best_bid := (bids.headD (0, 0)).1
        let best_ask := (asks.headD (0, 0)).1
        let mid := (best_bid + best_ask) / 2
        if mid = 0 then 0 else (best_ask - best_bid) / mid * 10000
      else 1000000000
    some { IB := ib, spread_bps := spread_bps, depth_top5_qty := bid_sum + ask_sum }

/-- The guard `spread_ok = (depth["spread_bps"] <= SPREAD_MAX_BPS)`. -/
def spread_ok (spread_bps SPREAD_MAX_BPS : ℚ) : Bool :=
  spread_bps ≤ SPREAD_MAX_BPS

/-- The guard `depth_ok = (depth["depth_top5_qty"] >= MIN_DEPTH_QTY)`. -/
def depth_ok (depth_top5_qty MIN_DEPTH_QTY : ℚ) : Bool :=
  depth_top5_qty ≥ MIN_DEPTH_QTY

/-- One aggregated trade record: timestamp `T` (absent keys fall back to the
current `startTime`, hence `Option`), quantity `q`, buyer-maker flag `m`
(`t.get("m", False)`). -/
structure AggTrade where
  T : Option Int
  q : ℚ
  m : Bool
  deriving Repr, DecidableEq, Inhabited

/-- One upstream page for `/aggTrades`: either a network-level exception
(`Except.error`, a raised `requests` exception — `session.get` in
`fetch_agg_trades_window` is not wrapped in try/except) or a `(status, batch)`
response. -/
abbrev AggPage := Except Unit (Int × List AggTrade)

/-- The `while True` pagination loop of `fetch_agg_trades_window`, recursing on
the remaining page budget (the `safety` counter allows at most 50 requests).
`upstream` maps the page index to that page's outcome. A non-200 status or an
empty batch ends the loop with the accumulated trades; a raised exception
propagates. -/
def aggLoop (upstream : Nat → AggPage) (end_ms : Int) :
    Nat → Nat → Int → List AggTrade → Except Unit (List AggTrade)
  | _, 0, _, out => .ok out
  | page, budget + 1, startTime, out =>
    match upstream page with
    | .error e => .error e
    | .ok (status, batch) =>
      if status ≠ 200 then .ok out
      else if batch = [] then .ok out
      else
        let out := out ++ batch
        let last_T := ((batch.getLastD default).T).getD startTime
        let next_start := last_T + 1
        if next_start ≥ end_ms then .ok out
        else aggLoop upstream end_ms (page + 1) budget next_start out

/-- `fetch_agg_trades_window(symbol, start_ms, end_ms, per_req)`: runs the
pagination loop from `start_ms` with an empty accumulator and the 50-page
budget. -/
def fetch_agg_trades_window (upstream : Nat → AggPage) (start_ms end_ms : Int) :
    Except Unit (List AggTrade) :=
  aggLoop upstream end_ms 0 50 start_ms []

/-- The record built by `agg_stats_for_window`. -/
structure FlowStats where
  buy_vol : ℚ
  sell_vol : ℚ
  pct_agg_buy : ℚ
  delta : ℚ
  deriving Repr, DecidableEq

/-- The zero flow block substituted by `m5_snapshot` when the flow computation
raises. -/
def zeroFlow : FlowStats := { buy_vol := 0, sell_vol := 0, pct_agg_buy := 0, delta := 0 }

/-- The accumulation and ratios of `agg_stats_for_window`, applied to an
already-fetched trade list: buyer-maker trades count as sell volume, the rest
as buy volume. -/
def agg_stats (agg : List AggTrade) : FlowStats :=
  let sums := agg.foldl (fun (bs : ℚ × ℚ) t =>
    if t.m then (bs.1, bs.2 + t.q) else (bs.1 + t.q, bs.2)) (0, 0)
  let buy_vol := sums.1
  let sell_vol := sums.2
  let total := buy_vol + sell_vol
  { buy_vol := buy_vol, sell_vol := sell_vol,
    pct_agg_buy := if total > 0 then buy_vol / total * 100 else 0,
    delta := buy_vol - sell_vol }

/-- `agg_stats_for_window(symbol, start, end)`: fetches the window's trades and
reduces them with `agg_stats`; a raised exception propagates to the caller. -/
def agg_stats_for_window (upstream : Nat → AggPage) (start_ms end_ms : Int) :
    Except Unit FlowStats :=
  (fetch_agg_trades_window upstream start_ms end_ms).map agg_stats

/-- The per-candle loop of `deltas_last_k_m5`, one upstream page family per
window (`upstreams j` serves window `j`). -/
def deltasGo (upstreams : Nat → Nat → AggPage) :
    Nat → List Candle → Except Unit (List ℚ)
  | _, [] => .ok []
  | j, c :: rest => do
    let stats ← agg_stats_for_window (upstreams j) c.open_time c.close_time
    let ds ← deltasGo upstreams (j + 1) rest
    pure (stats.delta :: ds)

/-- `deltas_last_k_m5(symbol, candles_m5, k)`: the deltas of the
`min(k, len - 1)` candles preceding the last one, via the window
`candles_m5[-(take+1):-1]`. -/
def deltas_last_k_m5 (upstreams : Nat → Nat → AggPage) (candles_m5 : List Candle)
    (k : Nat) : Except Unit (List ℚ) :=
  let take := min k (candles_m5.length - 1)
  if take = 0 then .ok []
  else
    let window := (candles_m5.drop (candles_m5.length - (take + 1))).dropLast
    deltasGo upstreams 1 window

/-- The flow try/except block of `m5_snapshot` (§4.2 of the route): computes the
last candle's flow statistics and the delta history; on success `coverage` is
`"full"`, on any raised exception the flow block is zeroed and `coverage` is
`"unknown"`. `upstreams 0` serves the last candle's window, `upstreams (j+1)`
the history windows. The z-score proxy is omitted: it raises no exception and
the claims under study do not mention it. -/
def m5_flow_try (upstreams : Nat → Nat → AggPage) (last_open last_close : Int)
    (candles : List Candle) : Except Unit FlowStats := do
  let flow_last ← agg_stats_for_window (upstreams 0) last_open last_close
  let _deltas_hist ← deltas_last_k_m5 (fun j => upstreams (j + 1)) candles 12
  pure flow_last

/-- The try/except around the tried block: on success `coverage` is `"full"`,
on a raised exception the flow block is zeroed and `coverage` is `"unknown"`. -/
def m5_flow_section (upstreams : Nat → Nat → AggPage) (last_open last_close : Int)
    (candles : List Candle) : FlowStats × String :=
  match m5_flow_try upstreams last_open last_close candles with
  | .ok flow_last => (flow_last, "full")
  | .error _ => (zeroFlow, "unknown")

/-- One `_snapshot_cache` entry: `{"expires": ms, "payload": dict}`. The payload
type is abstract. -/
structure CacheEntry (α : Type) where
  expires : Int
  payload : α
  deriving Repr, DecidableEq

/-- The `_snapshot_cache` dict, keyed by `(symbol, n)`. -/
def Cache (α : Type) : Type := String × Nat → Option (CacheEntry α)

/-- The cache discipline of `m5_snapshot`: on a hit (`t_now < expires`) return
the stored payload and leave the cache unchanged; on a miss compute the
payload, store it with `expires = t_now + max(5000, next_close - t_now)` where
`next_close = last_close + INTERVAL_MS`, and return it. The assembled document
is abstracted as `compute`; `last_close` is the last closed candle's close
time. -/
def m5_cache_step {α : Type} (cache : Cache α) (symbol : String) (n : Nat)
    (t_now : Int) (compute : α) (last_close : Int) : α × Cache α :=
  let miss : α × Cache α :=
    let next_close := last_close + INTERVAL_MS
    let ttl_ms := max 5000 (next_close - t_now)
    let entry : CacheEntry α := { expires := t_now + ttl_ms, payload := compute }
    (compute, fun k => if k = (symbol, n) then some entry else cache k)
  match cache (symbol, n) with
  | some e => if t_now < e.expires then (e.payload, cache) else miss
  | none => miss

/-! Specification-side definitions, written from the spec's words, to be
compared with the source embeddings above. -/

/-- Spec reading of "returns exactly the last `count` remaining bars": the last
`count` elements (everything for `count = 0`, matching the `[-n:]` slice). -/
def specLastN {α : Type} (count : Nat) (l : List α) : List α :=
  if count = 0 then l else (l.reverse.take count).reverse

/-- Spec reading of the close-time rule, per bar index: the base-timeframe
fetcher uses a fixed 5-minute duration; the interval fetcher uses the next
bar's open time when a next bar exists and otherwise extrapolates from the
preceding bar's duration (a lone bar falls back to the 5-minute duration). -/
def specCloseTime (isBase : Bool) (raw : List RawRow) (i : Nat) : Int :=
  if isBase then (raw.getD i default).openTime + INTERVAL_MS
  else if i + 1 < raw.length then (raw.getD (i + 1) default).openTime
  else if 0 < i then
    (raw.getD i default).openTime +
      ((raw.getD i default).openTime - (raw.getD (i - 1) default).openTime)
  else (raw.getD i default).openTime + INTERVAL_MS

/-- Spec-side closed-candle fetcher: requests `count + 2` raw bars, pairs each
bar with its close time per `specCloseTime`, discards bars whose close time
exceeds the current time, fails with InsufficientData (`noClosed`) exactly when
no bar remains, and returns the last `count` remaining bars. -/
def fetch_closed_candles_spec (isBase : Bool) (upstream : Nat → Int × List RawRow)
    (count : Nat) (t_now : Int) : Except KlinesErr (List Candle) :=
  let resp := upstream (count + 2)
  if resp.1 ≠ 200 then .error (.upstream resp.1)
  else
    let raw := resp.2
    let pairs := (List.range raw.length).map
      (fun i => (raw.getD i default, specCloseTime isBase raw i))
    let kept := pairs.filter (fun p => p.2 ≤ t_now)
    let candles := kept.map (fun p => mkCandle p.1 p.2)
    if candles = [] then .error .noClosed
    else .ok (specLastN count candles)

/-- Spec-side true range per bar: `high - low` for the first bar, the
three-way max against the previous close for every later bar (one entry per
consecutive pair). -/
def trPair (prev cur : HLC) : ℚ :=
  max (cur.high - cur.low) (max |cur.high - prev.close| |cur.low - prev.close|)

/-- Spec-side true-range sequence of a candle list. -/
def trSpec : List HLC → List ℚ
  | [] => []
  | c :: rest => (c.high - c.low) :: List.zipWith trPair (c :: rest) rest

/-! Helper lemmas. -/

lemma mem_lastSlice {α : Type} {n : Nat} {l : List α} {x : α}
    (hx : x ∈ lastSlice n l) : x ∈ l := by
  unfold lastSlice at hx
  split at hx
  · exact hx
  · exact List.mem_of_mem_drop hx

lemma trLoop_some_eq_zipWith (a : HLC) (cs : List HLC) :
    trLoop (some a.close) cs = List.zipWith trPair (a :: cs) cs := by
  induction cs generalizing a with
  | nil => rfl
  | cons c rest ih =>
      simp only [trLoop]
      rw [ih c]
      rfl

lemma trLoop_none_eq_trSpec (l : List HLC) : trLoop none l = trSpec l := by
  cases l with
  | nil => rfl
  | cons c rest => simp only [trLoop, trSpec, trLoop_some_eq_zipWith]

lemma trSpec_length (l : List HLC) : (trSpec l).length = l.length := by
  cases l with
  | nil => rfl
  | cons c rest => simp [trSpec, List.length_zipWith]

/-! Claim theorems. -/

/-- C1: every candle in a result of `fetch_klines_closed` or
`fetch_klines_closed_interval` has `close_time ≤ t_now`, the wall-clock time
observed at filtering; no candle whose implied close lies in the future is
returned. -/
theorem closed_fetchers_close_time_le_now
    (upstream : Nat → Int × List RawRow) (n : Nat) (t_now : Int) (out : List Candle) :
    (fetch_klines_closed upstream n t_now = .ok out →
      ∀ c ∈ out, c.close_time ≤ t_now) ∧
    (fetch_klines_closed_interval upstream n t_now = .ok out →
      ∀ c ∈ out, c.close_time ≤ t_now) := by
  constructor
  · intro h c hc
    simp only [fetch_klines_closed] at h
    split at h
    · exact absurd h (by simp)
    · split at h
      · exact absurd h (by simp)
      · cases h
        obtain ⟨row, _hrow, hsome⟩ := List.mem_filterMap.mp (mem_lastSlice hc)
        split at hsome
        · cases hsome
          assumption
        · cases hsome
  · intro h c hc
    simp only [fetch_klines_closed_interval] at h
    split at h
    · exact absurd h (by simp)
    · split at h
      · exact absurd h (by simp)
      · cases h
        obtain ⟨i, _hi, hsome⟩ := List.mem_filterMap.mp (mem_lastSlice hc)
        split at hsome
        · cases hsome
          assumption
        · cases hsome

/-- Witness for C1 at a concrete upstream response. -/
theorem closed_fetchers_close_time_le_now_witness :
    (mkCandle ⟨0, 1, 1, 1, 1, 1⟩ 300000).close_time ≤ (1000000000 : Int) :=
  (closed_fetchers_close_time_le_now (fun _ => (200, [⟨0, 1, 1, 1, 1, 1⟩])) 1 1000000000
      [mkCandle ⟨0, 1, 1, 1, 1, 1⟩ 300000]).1 rfl
    (mkCandle ⟨0, 1, 1, 1, 1, 1⟩ 300000) (by simp)

lemma specLastN_eq_lastSlice {α : Type} (n : Nat) (l : List α) :
    specLastN n l = lastSlice n l := by
  unfold specLastN lastSlice
  split
  · rfl
  · rw [List.reverse_take]
    simp

lemma filterMap_range_getD {α β : Type} [Inhabited α] (l : List α) (f : α → Option β) :
    (List.range l.length).filterMap (fun i => f (l.getD i default)) = l.filterMap f := by
  induction l with
  | nil => rfl
  | cons a t ih =>
      rw [List.length_cons, List.range_succ_eq_map, List.filterMap_cons, List.filterMap_map]
      have h1 : ((fun i => f ((a :: t).getD i default)) ∘ Nat.succ) =
          (fun i => f (t.getD i default)) := by
        funext i
        simp
      rw [h1, ih, List.filterMap_cons]
      simp

lemma map_filter_map_eq_filterMap {α β γ : Type} (g : α → β) (p : β → Bool)
    (f : β → γ) (l : List α) :
    ((l.map g).filter p).map f =
      l.filterMap (fun x => if p (g x) then some (f (g x)) else none) := by
  induction l with
  | nil => rfl
  | cons a t ih =>
      simp only [List.map_cons, List.filter_cons, List.filterMap_cons]
      by_cases h : p (g a)
      · simp [h, ih]
      · simp [h, ih]

/-- C2 counterexample: the base-timeframe fetcher computes the first bar's
close time as `open_time + INTERVAL_MS = 300000`, not as the next bar's open
time `1000`, although a next bar exists — refuting the claim's close-time rule
for `fetch_klines_closed`. -/
theorem fetch_klines_closed_close_time_not_next_open :
    fetch_klines_closed
        (fun _ => (200, [⟨0, 1, 1, 1, 1, 1⟩, ⟨1000, 1, 1, 1, 1, 1⟩])) 2 1000000000 =
      .ok [mkCandle ⟨0, 1, 1, 1, 1, 1⟩ 300000, mkCandle ⟨1000, 1, 1, 1, 1, 1⟩ 301000] ∧
    (300000 : Int) ≠ 1000 :=
  ⟨rfl, by decide⟩

/-- C2 amended: both fetchers request `count + 2` raw bars and discard bars
whose close time exceeds the current time; `fetch_klines_closed` computes every
close time as `open_time + INTERVAL_MS`, while `fetch_klines_closed_interval`
uses the next bar's open time when a next bar exists and otherwise
extrapolates from the preceding bar's duration; both fail with
InsufficientData exactly when zero closed bars remain and otherwise return the
last `count` of the remaining bars. Stated as equality with the spec-side
`fetch_closed_candles_spec`. -/
theorem fetch_closed_candles_refines_spec (upstream : Nat → Int × List RawRow)
    (n : Nat) (t_now : Int) :
    fetch_klines_closed upstream n t_now =
      fetch_closed_candles_spec true upstream n t_now ∧
    fetch_klines_closed_interval upstream n t_now =
      fetch_closed_candles_spec false upstream n t_now := by
  constructor
  · unfold fetch_klines_closed fetch_closed_candles_spec
    dsimp only
    by_cases hst : (upstream (n + 2)).1 ≠ 200
    · simp only [if_pos hst]
    · rw [if_neg hst, if_neg hst]
      have hlist :
          ((((List.range (upstream (n + 2)).2.length).map
              (fun i => ((upstream (n + 2)).2.getD i default,
                specCloseTime true (upstream (n + 2)).2 i))).filter
                (fun p => p.2 ≤ t_now)).map (fun p => mkCandle p.1 p.2)) =
            (upstream (n + 2)).2.filterMap (fun row =>
              if row.openTime + INTERVAL_MS ≤ t_now then
                some (mkCandle row (row.openTime + INTERVAL_MS)) else none) := by
        rw [map_filter_map_eq_filterMap]
        rw [← filterMap_range_getD (upstream (n + 2)).2 (fun row =>
          if row.openTime + INTERVAL_MS ≤ t_now then
            some (mkCandle row (row.openTime + INTERVAL_MS)) else none)]
        congr 1
        funext i
        simp [specCloseTime]
      rw [hlist, specLastN_eq_lastSlice]
  · unfold fetch_klines_closed_interval fetch_closed_candles_spec
    dsimp only
    by_cases hst : (upstream (n + 2)).1 ≠ 200
    · simp only [if_pos hst]
    · rw [if_neg hst, if_neg hst]
      have hlist :
          ((((List.range (upstream (n + 2)).2.length).map
              (fun i => ((upstream (n + 2)).2.getD i default,
                specCloseTime false (upstream (n + 2)).2 i))).filter
                (fun p => p.2 ≤ t_now)).map (fun p => mkCandle p.1 p.2)) =
            (List.range (upstream (n + 2)).2.length).filterMap (fun i =>
              if closeTimeAt (upstream (n + 2)).2 i ≤ t_now then
                some (mkCandle ((upstream (n + 2)).2.getD i default)
                  (closeTimeAt (upstream (n + 2)).2 i)) else none) := by
        rw [map_filter_map_eq_filterMap]
        congr 1
        funext i
        simp [specCloseTime, closeTimeAt]
      rw [hlist, specLastN_eq_lastSlice]

lemma aggLoop_ok_of_responses (upstream : Nat → AggPage) (end_ms : Int)
    (h : ∀ p : Nat, ∃ r, upstream p = .ok r) :
    ∀ (budget page : Nat) (startTime : Int) (out : List AggTrade),
      ∃ l, aggLoop upstream end_ms page budget startTime out = .ok l := by
  intro budget
  induction budget with
  | zero => intro page st out; exact ⟨out, rfl⟩
  | succ b ih =>
      intro page st out
      obtain ⟨⟨status, batch⟩, hp⟩ := h page
      simp only [aggLoop, hp]
      split
      · exact ⟨out, rfl⟩
      · split
        · exact ⟨out, rfl⟩
        · split
          · exact ⟨_, rfl⟩
          · exact ih _ _ _

/-- C3: for every sequence of upstream page responses — any statuses, any
batches, however many pages — `fetch_agg_trades_window` returns the
accumulated trades as a normal `.ok` value; upstream failure or the 50-page
ceiling is never signalled by an error. -/
theorem fetch_agg_trades_window_total_on_responses
    (upstream : Nat → AggPage) (start_ms end_ms : Int)
    (h : ∀ p : Nat, ∃ r, upstream p = .ok r) :
    ∃ trades, fetch_agg_trades_window upstream start_ms end_ms = .ok trades :=
  aggLoop_ok_of_responses upstream end_ms h 50 0 start_ms []

/-- Witness for C3: an upstream that answers every page with a non-success
status. -/
theorem fetch_agg_trades_window_total_on_responses_witness :
    ∃ trades, fetch_agg_trades_window (fun _ => .ok (500, [])) 0 1000 = .ok trades :=
  fetch_agg_trades_window_total_on_responses (fun _ => .ok (500, [])) 0 1000
    (fun _ => ⟨(500, []), rfl⟩)

/-- C4 counterexample: an upstream that refuses every trade page (status 500)
retrieves no trades at all, yet the snapshot's coverage is `"full"`, not
`"unknown"`; no window-edge tolerance check exists in the code. -/
theorem coverage_full_without_trades :
    fetch_agg_trades_window (fun _ => .ok (500, [])) 0 300000 = .ok [] ∧
    m5_flow_section (fun _ _ => .ok (500, [])) 0 300000 [mkCandle default 300000] =
      (zeroFlow, "full") ∧
    ("full" : String) ≠ "unknown" := by
  have h1 : agg_stats ([] : List AggTrade) = zeroFlow := by
    simp [agg_stats, zeroFlow]
  refine ⟨rfl, ?_, by decide⟩
  calc m5_flow_section (fun _ _ => .ok (500, [])) 0 300000 [mkCandle default 300000]
      = (agg_stats [], "full") := rfl
    _ = (zeroFlow, "full") := by rw [h1]

/-- C4 amended: coverage is `"full"` whenever the flow computation completes
without a raised exception — regardless of how much of the window the observed
trades span, including when no trades were retrievable — and `"unknown"`
exactly when the flow computation raises; a raising upstream failure yields
all-zero volumes with coverage `"unknown"`. -/
theorem coverage_unknown_iff_exception
    (upstreams : Nat → Nat → AggPage) (last_open last_close : Int)
    (candles : List Candle) :
    ((m5_flow_section upstreams last_open last_close candles).2 = "unknown" ↔
      m5_flow_try upstreams last_open last_close candles = .error ()) ∧
    (m5_flow_try upstreams last_open last_close candles = .error () →
      m5_flow_section upstreams last_open last_close candles = (zeroFlow, "unknown")) := by
  constructor
  · unfold m5_flow_section
    cases h : m5_flow_try upstreams last_open last_close candles with
    | ok f => simp
    | error e => cases e; simp
  · intro h
    unfold m5_flow_section
    rw [h]

/-- Witness for C4's amended theorem: an upstream whose first page raises. -/
theorem coverage_unknown_iff_exception_witness :
    m5_flow_section (fun _ _ => .error ()) 0 300000 [] = (zeroFlow, "unknown") :=
  (coverage_unknown_iff_exception (fun _ _ => .error ()) 0 300000 []).2 rfl

lemma expiry_eq (t lc : Int) :
    t + max 5000 (lc + INTERVAL_MS - t) = max (t + 5000) (lc + INTERVAL_MS) := by
  rw [← max_add_add_left]
  congr 1
  ring

lemma m5_cache_step_hit {α : Type} (cache : Cache α) (s : String) (n : Nat)
    (t : Int) (compute : α) (lc : Int) (e : CacheEntry α)
    (he : cache (s, n) = some e) (hlt : t < e.expires) :
    m5_cache_step cache s n t compute lc = (e.payload, cache) := by
  unfold m5_cache_step
  rw [he]
  dsimp only
  rw [if_pos hlt]

lemma m5_cache_step_miss {α : Type} (cache : Cache α) (s : String) (n : Nat)
    (t : Int) (compute : α) (lc : Int)
    (hexp : ∀ e, cache (s, n) = some e → e.expires ≤ t) :
    m5_cache_step cache s n t compute lc =
      (compute, fun k => if k = (s, n) then
        some ⟨t + max 5000 (lc + INTERVAL_MS - t), compute⟩ else cache k) := by
  unfold m5_cache_step
  cases hc : cache (s, n) with
  | none => rfl
  | some e =>
      dsimp only
      rw [if_neg (not_lt.mpr (hexp e hc))]

/-- C5: a cache hit (unexpired entry for the key) returns the stored document
verbatim with the cache unchanged; a miss stores the fresh document with
expiry `max(now + 5s, next_bar_close_time)` and returns it; hence a second
call for the same key within the stored entry's lifetime returns the first
call's document even if recomputation would differ. -/
theorem snapshot_cache_spec {α : Type} (cache : Cache α) (s : String) (n : Nat)
    (t1 t2 : Int) (compute compute2 : α) (lc lc2 : Int) :
    (∀ e, cache (s, n) = some e → t1 < e.expires →
      m5_cache_step cache s n t1 compute lc = (e.payload, cache)) ∧
    ((∀ e, cache (s, n) = some e → e.expires ≤ t1) →
      (m5_cache_step cache s n t1 compute lc).1 = compute ∧
      ∃ e, (m5_cache_step cache s n t1 compute lc).2 (s, n) = some e ∧
        e.expires = max (t1 + 5000) (lc + INTERVAL_MS) ∧ e.payload = compute) ∧
    ((∀ e, cache (s, n) = some e → e.expires ≤ t1) →
      t2 < max (t1 + 5000) (lc + INTERVAL_MS) →
      (m5_cache_step ((m5_cache_step cache s n t1 compute lc).2) s n t2 compute2 lc2).1
        = compute) := by
  refine ⟨fun e he hlt => m5_cache_step_hit cache s n t1 compute lc e he hlt,
    fun hexp => ?_, fun hexp h2 => ?_⟩
  · rw [m5_cache_step_miss cache s n t1 compute lc hexp]
    exact ⟨rfl, ⟨t1 + max 5000 (lc + INTERVAL_MS - t1), compute⟩, by simp,
      expiry_eq t1 lc, rfl⟩
  · rw [m5_cache_step_miss cache s n t1 compute lc hexp]
    have he2 : (fun k => if k = (s, n) then
        some (⟨t1 + max 5000 (lc + INTERVAL_MS - t1), compute⟩ : CacheEntry α)
        else cache k) (s, n) =
        some ⟨t1 + max 5000 (lc + INTERVAL_MS - t1), compute⟩ := by simp
    have hlt2 : t2 < (⟨t1 + max 5000 (lc + INTERVAL_MS - t1), compute⟩ :
        CacheEntry α).expires := by
      show t2 < t1 + max 5000 (lc + INTERVAL_MS - t1)
      rw [expiry_eq]
      exact h2
    show (m5_cache_step (fun k => if k = (s, n) then
        some ⟨t1 + max 5000 (lc + INTERVAL_MS - t1), compute⟩ else cache k)
        s n t2 compute2 lc2).1 = compute
    rw [m5_cache_step_hit _ s n t2 compute2 lc2 _ he2 hlt2]

/-- Witness for C5: an empty cache, a miss at time 0 computing the value 7,
then a second request at time 3000, still inside the stored lifetime. -/
theorem snapshot_cache_spec_witness :
    (m5_cache_step (fun _ => none : Cache Nat) "BTCUSDT" 20 0 7 100).1 = 7 ∧
    (m5_cache_step ((m5_cache_step (fun _ => none : Cache Nat) "BTCUSDT" 20 0 7 100).2)
      "BTCUSDT" 20 3000 9 100).1 = 7 :=
  ⟨((snapshot_cache_spec (fun _ => none) "BTCUSDT" 20 0 3000 7 9 100 100).2.1
      (fun e he => by cases he)).1,
   (snapshot_cache_spec (fun _ => none) "BTCUSDT" 20 0 3000 7 9 100 100).2.2
      (fun e he => by cases he) (by norm_num [INTERVAL_MS])⟩

/-- C6 counterexample: with one empty book side the sentinel spread is the
finite value `1e9`, and the finite threshold `SPREAD_MAX_BPS = 1e9` makes
`spread_ok` true — so `spread_ok` is not false for every finite threshold. -/
theorem spread_ok_true_at_finite_sentinel_threshold :
    depth_snapshot 200 [] [(1, 1)] = some ⟨-1, 1000000000, 1⟩ ∧
    spread_ok 1000000000 1000000000 = true := by
  constructor
  · norm_num [depth_snapshot]
  · simp [spread_ok]

/-- C6 amended: whenever the depth query succeeds but returns no bids or no
asks, `spread_bps` is the sentinel `1e9`, and `spread_ok` is false for every
configured threshold strictly below the sentinel. -/
theorem empty_book_spread_sentinel (bids asks : List (ℚ × ℚ)) (thr : ℚ)
    (hempty : bids = [] ∨ asks = []) :
    ∃ d, depth_snapshot 200 bids asks = some d ∧ d.spread_bps = 1000000000 ∧
      (thr < 1000000000 → spread_ok d.spread_bps thr = false) := by
  have hcond : ¬(bids ≠ [] ∧ asks ≠ []) := by
    rcases hempty with h | h <;> simp [h]
  unfold depth_snapshot
  rw [if_neg (by norm_num), if_neg hcond]
  refine ⟨_, rfl, rfl, ?_⟩
  intro h
  simp only [spread_ok, decide_eq_false_iff_not]
  exact not_le.mpr h

/-- Witness for C6's amended theorem: an empty bid book against the default
threshold of 3 bps. -/
theorem empty_book_spread_sentinel_witness :
    spread_ok 1000000000 3 = false ∧ depth_snapshot 200 [] [(1, 1)] ≠ none := by
  obtain ⟨d, hd, hs, himp⟩ := empty_book_spread_sentinel [] [(1, 1)] 3 (Or.inl rfl)
  have hok := himp (by norm_num)
  rw [hs] at hok
  exact ⟨hok, by rw [hd]; simp⟩

/-- C7: `atr14_from_candles` returns 0 for fewer than 15 candles; for at least
15 candles it returns the mean of the last 14 true-range values (first bar
`high - low`, later bars the three-way max against the previous close); for
exactly 15 candles it is the mean of the 14 true ranges of consecutive pairs. -/
theorem atr14_spec (l : List HLC) :
    (l.length < 15 → atr14_from_candles l = 0) ∧
    (15 ≤ l.length →
      atr14_from_candles l = ((trSpec l).drop ((trSpec l).length - 14)).sum / 14) ∧
    (l.length = 15 →
      atr14_from_candles l = (List.zipWith trPair l l.tail).sum / 14) := by
  refine ⟨?_, ?_, ?_⟩
  · intro h
    simp only [atr14_from_candles]
    rw [if_pos h]
  · intro h
    simp only [atr14_from_candles, trLoop_none_eq_trSpec]
    rw [if_neg (by omega)]
  · intro h
    simp only [atr14_from_candles, trLoop_none_eq_trSpec]
    rw [if_neg (by omega)]
    cases l with
    | nil => simp at h
    | cons c rest =>
        have hlen : (trSpec (c :: rest)).length = 15 := by rw [trSpec_length]; exact h
        rw [hlen]
        norm_num [trSpec]

/-- Witness for C7 on an explicit 15-candle list. -/
theorem atr14_spec_witness :
    atr14_from_candles (List.replicate 15 ⟨2, 1, 1⟩) =
      (List.zipWith trPair (List.replicate 15 ⟨2, 1, 1⟩)
        (List.replicate 15 (⟨2, 1, 1⟩ : HLC)).tail).sum / 14 ∧
    atr14_from_candles [] = 0 :=
  ⟨(atr14_spec (List.replicate 15 ⟨2, 1, 1⟩)).2.2 (by simp),
   (atr14_spec []).1 (by simp)⟩

/-- C8: `zscore` returns 0 for an empty or single-element series; for two or
more elements the divisor `sqrt(max(sample variance, 1e-12))` is nonzero for
any square root positive on positive arguments, so the quotient
`(value - mean) / sd` never divides by zero. -/
theorem zscore_safe (sqrtF : ℚ → ℚ) (v : ℚ) (s : List ℚ)
    (hsqrt : ∀ x : ℚ, 0 < x → 0 < sqrtF x) :
    (s.length < 2 → zscore sqrtF v s = 0) ∧
    (2 ≤ s.length →
      sqrtF (max (zvarSample s) (1 / 1000000000000)) ≠ 0 ∧
      zscore sqrtF v s =
        (v - zmean s) / sqrtF (max (zvarSample s) (1 / 1000000000000))) := by
  constructor
  · intro h
    simp only [zscore]
    rw [if_pos (Or.inr h)]
  · intro h
    have hpos : 0 < sqrtF (max (zvarSample s) (1 / 1000000000000)) :=
      hsqrt _ (lt_of_lt_of_le (by norm_num) (le_max_right _ _))
    refine ⟨ne_of_gt hpos, ?_⟩
    simp only [zscore]
    rw [if_neg]
    rintro (rfl | hlt)
    · simp at h
    · omega

/-- Witness for C8: a degenerate and a two-element series, with the identity as
the square root. -/
theorem zscore_safe_witness :
    zscore id 3 [0, 1] =
      (3 - zmean [0, 1]) / id (max (zvarSample [0, 1]) (1 / 1000000000000)) ∧
    zscore id 3 [42] = 0 :=
  ⟨((zscore_safe id 3 [0, 1] (fun _ h => h)).2 (by norm_num)).2,
   (zscore_safe id 3 [42] (fun _ h => h)).1 (by norm_num)⟩

/-- C9: `depth_ok` is antitone in the `MIN_DEPTH_QTY` threshold: raising the
threshold never turns `depth_ok` from false to true, and a threshold strictly
above the observed top-of-book sum makes it false. -/
theorem depth_ok_antitone (q t t' : ℚ) (h : t ≤ t') :
    (depth_ok q t' = true → depth_ok q t = true) ∧
    (q < t' → depth_ok q t' = false) := by
  constructor
  · intro h2
    simp only [depth_ok, ge_iff_le, decide_eq_true_eq] at h2 ⊢
    exact le_trans h h2
  · intro hq
    simp only [depth_ok, ge_iff_le, decide_eq_false_iff_not]
    exact not_le.mpr hq

/-- Witness for C9 at concrete quantities. -/
theorem depth_ok_antitone_witness : (1 : ℚ) ≤ 2 ∧ depth_ok 1 2 = false :=
  ⟨by norm_num, (depth_ok_antitone 1 1 2 (by norm_num)).2 (by norm_num)⟩

/-- C10: for every `period ≤ 1` the EMA is 0, even on a non-empty list at
least `period` long; the smoothing recurrence is never entered. -/
theorem ema_period_le_one_zero (values : List ℚ) (period : Int) (h : period ≤ 1) :
    ema values period = 0 := by
  simp only [ema]
  rw [if_pos (Or.inr (Or.inl h))]

/-- Witness for C10: a two-element list with period 1 yields 0, not the
recurrence's last value. -/
theorem ema_period_le_one_zero_witness : ema [1, 2] 1 = 0 :=
  ema_period_le_one_zero [1, 2] 1 (by norm_num)

end RelayBinance
